import Mathlib

/-!
# DarkMint proof-generation pipeline: a shallow embedding

This file embeds the core of the DarkMint repository in Lean 4 and proves
properties of its specification against the embedded code.

Embedded components (translated from the Rust source):
* `keccak256` — Keccak-256 as implemented by the `tiny_keccak` crate used in
  `src/lib/src/crypto.rs` (standard Ethereum Keccak-256, rate 136, domain
  byte `0x01`), realized here directly over `Nat`-valued bytes and lanes.
* the RLP string/list encoders used through the `rlp` crate by
  `encode_account_rlp` (`src/lib/src/account_verification.rs`) and
  `rlp_encode_account` (`src/lib/src/mpt_last.rs`).
* the LAST circuit `verify_account_proof` and its helpers, the PATH circuit
  `verify_merkle_path` and its helpers, and the orchestrator loop of
  `src/program/src/main.rs` (`process_mpt_path_proofs`, `generate_root_proof`,
  `encode_proof_data`).

The Poseidon hash `poseidon_hash` is provided by the external `light-poseidon`
crate, whose constants table lives outside this repository; every embedded
definition therefore takes the two-input algebraic hash `H : Fr → Fr → Fr` as
an explicit parameter, and theorems quantify over it.  Rust panics are
modelled by `Option`: a function that panics on some input returns `none`
there and `some` of its outputs otherwise.

A byte is a `Nat` (values are kept below 256 by construction: every byte the
embedding fabricates is reduced `% 256`, mirroring `u8` arithmetic).
-/

/-- Bytes are natural numbers below 256; byte strings are lists. -/
abbrev Bytes := List Nat

/-- The BN254 scalar field order (the modulus of `ark_bn254::Fr`). -/
def bn254r : Nat :=
  21888242871839275222246405745257275088548364400416034343698204186575808495617

/-- The scalar field of BN254, the field `Fr` of the Rust source. -/
abbrev Fr := ZMod bn254r

/-- Big-endian byte serialization of a natural number into `k` bytes,
truncating above `2^(8k)` exactly as a `k`-byte integer cast would. -/
def beBytes (k n : Nat) : Bytes :=
  (List.range k).map fun i => n / 256 ^ (k - 1 - i) % 256

/-- `into_bigint().to_bytes_be()` for a BN254 field element: 32 big-endian
bytes of the canonical representative. -/
def frToBytesBe (x : Fr) : Bytes := beBytes 32 x.val

/-- Little-endian value of a byte string. -/
def leToNat (l : Bytes) : Nat := l.foldr (fun b acc => b + 256 * acc) 0

/-- Big-endian value of a byte string. -/
def beToNat (l : Bytes) : Nat := l.foldl (fun acc b => 256 * acc + b) 0

/-- `Fr::from_le_bytes_mod_order`: little-endian bytes reduced mod the field
order. -/
def frFromLeBytes (l : Bytes) : Fr := (leToNat l : Fr)

/-- `Fr::from_be_bytes_mod_order`: big-endian bytes reduced mod the field
order. -/
def frFromBeBytes (l : Bytes) : Fr := (beToNat l : Fr)

/-! ## Keccak-256 (`tiny_keccak::Keccak::v256`)

The hash used by `crypto.rs::keccak256`, `mpt_last.rs::keccak256` and
`program/src/main.rs::compute_keccak256`.  Lanes are 64-bit words stored as
`Nat`s kept below `2^64`; the state is the standard 5×5 lane grid flattened
as index `x + 5*y`. -/

/-- 64-bit left rotation. -/
def rotl64 (x n : Nat) : Nat :=
  ((x <<< n) ||| (x >>> (64 - n))) % 2 ^ 64

/-- 64-bit bitwise complement. -/
def not64 (x : Nat) : Nat := x ^^^ (2 ^ 64 - 1)

/-- The Keccak-f[1600] round constant of round `t`. -/
def keccakRC (t : Nat) : Nat :=
  match t with
  | 0 => 0x0000000000000001
  | 1 => 0x0000000000008082
  | 2 => 0x800000000000808a
  | 3 => 0x8000000080008000
  | 4 => 0x000000000000808b
  | 5 => 0x0000000080000001
  | 6 => 0x8000000080008081
  | 7 => 0x8000000000008009
  | 8 => 0x000000000000008a
  | 9 => 0x0000000000000088
  | 10 => 0x0000000080008009
  | 11 => 0x000000008000000a
  | 12 => 0x000000008000808b
  | 13 => 0x800000000000008b
  | 14 => 0x8000000000008089
  | 15 => 0x8000000000008003
  | 16 => 0x8000000000008002
  | 17 => 0x8000000000000080
  | 18 => 0x000000000000800a
  | 19 => 0x800000008000000a
  | 20 => 0x8000000080008081
  | 21 => 0x8000000000008080
  | 22 => 0x0000000080000001
  | 23 => 0x8000000080008008
  | _ => 0

/-- The rho rotation offset of lane `x + 5*y`. -/
def keccakRot (i : Nat) : Nat :=
  match i with
  | 0 => 0
  | 1 => 1
  | 2 => 62
  | 3 => 28
  | 4 => 27
  | 5 => 36
  | 6 => 44
  | 7 => 6
  | 8 => 55
  | 9 => 20
  | 10 => 3
  | 11 => 10
  | 12 => 43
  | 13 => 25
  | 14 => 39
  | 15 => 41
  | 16 => 45
  | 17 => 15
  | 18 => 21
  | 19 => 8
  | 20 => 18
  | 21 => 2
  | 22 => 61
  | 23 => 56
  | 24 => 14
  | _ => 0

/-- One Keccak-f round (θ, ρ, π, χ, ι) on the 25-lane state. -/
def keccakRound (A : List Nat) (rc : Nat) : List Nat :=
  let g := fun (l : List Nat) (i : Nat) => l.getD i 0
  let C := (List.range 5).map fun x =>
    g A x ^^^ g A (x + 5) ^^^ g A (x + 10) ^^^ g A (x + 15) ^^^ g A (x + 20)
  let D := (List.range 5).map fun x =>
    g C ((x + 4) % 5) ^^^ rotl64 (g C ((x + 1) % 5)) 1
  let A1 := (List.range 25).map fun i => g A i ^^^ g D (i % 5)
  let B := (List.range 25).map fun j =>
    let x' := j % 5
    let y' := j / 5
    let x := (3 * (y' + 20 - 3 * x')) % 5
    let i := x + 5 * x'
    rotl64 (g A1 i) (keccakRot i)
  let A2 := (List.range 25).map fun i =>
    let x := i % 5
    let y := i / 5
    g B i ^^^ (not64 (g B ((x + 1) % 5 + 5 * y)) &&& g B ((x + 2) % 5 + 5 * y))
  (g A2 0 ^^^ rc) :: A2.tail

/-- The full Keccak-f[1600] permutation. -/
def keccakF (A : List Nat) : List Nat :=
  (List.range 24).foldl (fun s t => keccakRound s (keccakRC t)) A

/-- Keccak multi-rate padding with domain byte `0x01` (original Keccak, as in
`tiny_keccak`), to a multiple of the 136-byte rate. -/
def keccakPad (msg : Bytes) : Bytes :=
  let q := 136 - msg.length % 136
  if q = 1 then msg ++ [0x81]
  else msg ++ [0x01] ++ List.replicate (q - 2) 0 ++ [0x80]

/-- XOR a 136-byte block into the first 17 lanes of the state. -/
def keccakAbsorbBlock (A : List Nat) (block : Bytes) : List Nat :=
  let lanes := (List.range 17).map fun j => leToNat ((block.drop (8 * j)).take 8)
  keccakF ((List.range 25).map fun i => A.getD i 0 ^^^ lanes.getD i 0)

/-- Keccak-256 of a byte string: absorb all padded blocks, squeeze 32 bytes. -/
def keccak256 (msg : Bytes) : Bytes :=
  let padded := keccakPad msg
  let blocks := (List.range (padded.length / 136)).map fun b =>
    (padded.drop (136 * b)).take 136
  let final := blocks.foldl keccakAbsorbBlock (List.replicate 25 0)
  (List.range 32).map fun k => final.getD (k / 8) 0 >>> (8 * (k % 8)) % 256

/-! ## Crypto helpers (`src/lib/src/crypto.rs`) -/

/-- `SECURITY_PARAMETER` from `crypto.rs`. -/
def SECURITY_PARAMETER : Nat := 20

/-- `ADDRESS_LENGTH` from `crypto.rs`. -/
def ADDRESS_LENGTH : Nat := 20

/-- `contains_substring` from `crypto.rs` / `merkle_proof.rs` /
`program/src/main.rs` (all three copies have the same semantics: a sliding
window over every admissible offset, comparing byte-for-byte). -/
def containsSubstring (substring mainString : Bytes) : Bool :=
  if substring.length > mainString.length then false
  else (List.range (mainString.length - substring.length + 1)).any fun i =>
    (mainString.drop i).take substring.length == substring

/-- `bytes_to_field_element` from `crypto.rs` (and `hash_bytes_poseidon` in
`mpt_path.rs`): the first 32 bytes, zero-padded on the right, read
little-endian and reduced mod the field order; empty input yields zero.
Right-padding with zero bytes does not change a little-endian value, so this
is the little-endian value of the first 32 bytes. -/
def bytesToFieldElement (bytes : Bytes) : Fr := frFromLeBytes (bytes.take 32)

/-- `hash_ethereum_address` from `crypto.rs` (= `hash_address` in
`mpt_last.rs`): Keccak-256 of the 20 address bytes. -/
def hashEthereumAddress (address : Bytes) : Bytes := keccak256 address

/-- `derive_burn_address` from `crypto.rs`: the first 20 big-endian bytes of
`H(preimage, preimage)`.  `H` is the Poseidon hash, a parameter here (its
implementation lives in the external `light-poseidon` crate). -/
def deriveBurnAddress (H : Fr → Fr → Fr) (preimage : Fr) : Bytes :=
  (frToBytesBe (H preimage preimage)).take ADDRESS_LENGTH

/-- `generate_nullifier` from `crypto.rs`: `H(preimage, 0)`. -/
def generateNullifier (H : Fr → Fr → Fr) (preimage : Fr) : Fr := H preimage 0

/-- `process_balance` from `crypto.rs`: `H(balance, salt)` when encrypting,
the balance itself otherwise. -/
def processBalance (H : Fr → Fr → Fr) (balance salt : Fr) (encrypted : Bool) : Fr :=
  if encrypted then H balance salt else balance

/-- `field_element_to_u32` from `program/src/main.rs`: bytes 28..31 of the
32-byte big-endian serialization, read big-endian. -/
def fieldElementToU32 (x : Fr) : Nat :=
  beToNat [(frToBytesBe x).getD 28 0, (frToBytesBe x).getD 29 0,
           (frToBytesBe x).getD 30 0, (frToBytesBe x).getD 31 0]

/-! ## RLP encoding

The Rust source encodes through the external `rlp` crate (`RlpStream`).
Modelled from the spec: RLP is Ethereum's Recursive-Length Prefix
serialization — a byte-string item of length 1 whose byte is below `0x80`
encodes as itself; a string of length ≤ 55 as `0x80+len` followed by the
bytes; a longer string as `0xb7+len(len)` then the minimal big-endian length
then the bytes.  A list whose payload is ≤ 55 bytes gets header `0xc0+len`,
longer ones `0xf7+len(len)` then the minimal big-endian length. -/

/-- Minimal big-endian bytes of a natural number (empty for zero). -/
def beMinimal (n : Nat) : Bytes :=
  (beBytes 16 n).dropWhile (· == 0)

/-- RLP encoding of a single byte-string item. -/
def rlpString (b : Bytes) : Bytes :=
  if b.length = 1 ∧ b.getD 0 0 < 0x80 then b
  else if b.length ≤ 55 then (0x80 + b.length) :: b
  else (0xb7 + (beMinimal b.length).length) :: (beMinimal b.length ++ b)

/-- RLP encoding of a list of already-encoded items. -/
def rlpListOf (payload : Bytes) : Bytes :=
  if payload.length ≤ 55 then (0xc0 + payload.length) :: payload
  else (0xf7 + (beMinimal payload.length).length) :: (beMinimal payload.length ++ payload)

/-- `encode_account_rlp` from `account_verification.rs`: a 4-item RLP list of
nonce and balance with leading zero bytes stripped, then the two 32-byte
hashes verbatim. -/
def encodeAccountRlp (nonce balance : Nat) (storageHash codeHash : Bytes) : Bytes :=
  let nonceBytes := (beBytes 8 nonce).dropWhile (· == 0)
  let balanceBytes := (beBytes 16 balance).dropWhile (· == 0)
  rlpListOf (rlpString nonceBytes ++ rlpString balanceBytes ++
    rlpString storageHash ++ rlpString codeHash)

/-- `rlp_encode_account` from `mpt_last.rs`: a 4-item RLP list of the full
8-byte big-endian nonce and the full 16-byte big-endian balance (no leading
zero stripping), then the two 32-byte hashes verbatim. -/
def rlpEncodeAccount (nonce balance : Nat) (storageHash codeHash : Bytes) : Bytes :=
  rlpListOf (rlpString (beBytes 8 nonce) ++ rlpString (beBytes 16 balance) ++
    rlpString storageHash ++ rlpString codeHash)

/-- `generate_expected_prefix` from `account_verification.rs` (the same bytes
are computed inline in `mpt_last_circuit`, steps 5–6): the last
`SECURITY_PARAMETER` bytes of `keccak(burn_address)`, then `1 + 0x80 + 55`,
then `account_rlp_len as u8`. -/
def generateExpectedPrefix (burnAddress : Bytes) (accountRlpLen : Nat) : Bytes :=
  let addressHash := hashEthereumAddress burnAddress
  ((List.range SECURITY_PARAMETER).map fun i =>
    addressHash.getD (32 - SECURITY_PARAMETER + i) 0) ++
  [1 + 0x80 + 55, accountRlpLen % 256]

/-! ## PATH circuit (`src/lib/src/merkle_proof.rs`) -/

/-- `MerklePathInputs` from `merkle_proof.rs`. -/
structure MerklePathInputs where
  is_top : Bool
  num_upper_layer_bytes : Nat
  upper_layer_bytes : Bytes
  num_lower_layer_bytes : Nat
  lower_layer_bytes : Bytes
  salt : Fr
deriving DecidableEq, Repr

/-- `MerklePathOutputs` from `merkle_proof.rs`. -/
structure MerklePathOutputs where
  commit_upper : Fr
  commit_lower : Fr
deriving DecidableEq, Repr

/-- `generate_layer_commitment` from `merkle_proof.rs`:
`H(H(bytes_to_field_element(layer), num_bytes), salt)`. -/
def generateLayerCommitment (H : Fr → Fr → Fr) (layerBytes : Bytes)
    (numBytes : Nat) (salt : Fr) : Fr :=
  H (H (bytesToFieldElement layerBytes) (numBytes : Fr)) salt

/-- `calculate_upper_commitment` from `merkle_proof.rs`: the base commitment
`H(H(bytes_to_field_element(upper), num_upper), salt)`, mixed with
`bytes_to_field_element(keccak(lower))` when `is_top`. -/
def calculateUpperCommitment (H : Fr → Fr → Fr) (upperLayerBytes : Bytes)
    (numUpperBytes : Nat) (lowerLayerKeccak : Bytes) (salt : Fr)
    (isTop : Bool) : Fr :=
  let commitUpperToSalt := H (H (bytesToFieldElement upperLayerBytes) (numUpperBytes : Fr)) salt
  if isTop then H commitUpperToSalt (bytesToFieldElement lowerLayerKeccak)
  else commitUpperToSalt

/-- `verify_substring_constraint` from `merkle_proof.rs` as a boolean:
`true` when the function returns `Ok(())`, which the source does exactly for
`(is_top && !substring_found) || (!is_top && substring_found)`. -/
def verifySubstringConstraint (keccakLower upperLayerBytes : Bytes)
    (isTop : Bool) : Bool :=
  let substringFound := containsSubstring keccakLower upperLayerBytes
  (isTop && !substringFound) || (!isTop && substringFound)

/-- `verify_merkle_path` from `merkle_proof.rs` (re-exported by `lib.rs` as
`mpt_path_circuit`): computes both commitments, then panics — modelled as
`none` — unless the substring-containment constraint holds. -/
def verifyMerklePath (H : Fr → Fr → Fr) (inputs : MerklePathInputs) :
    Option MerklePathOutputs :=
  let commitLower := generateLayerCommitment H inputs.lower_layer_bytes
    inputs.num_lower_layer_bytes inputs.salt
  let keccakLowerLayer := keccak256 inputs.lower_layer_bytes
  let commitUpper := calculateUpperCommitment H inputs.upper_layer_bytes
    inputs.num_upper_layer_bytes keccakLowerLayer inputs.salt inputs.is_top
  if verifySubstringConstraint keccakLowerLayer inputs.upper_layer_bytes inputs.is_top
  then some ⟨commitUpper, commitLower⟩
  else none

/-! ## LAST circuit (`src/lib/src/account_verification.rs`) -/

/-- `AccountProofInputs` from `account_verification.rs` (re-exported by
`lib.rs` as `MptLastInputs`).  Integer fields are `Nat`s standing for the
`u32`/`u64`/`u128` machine values. -/
structure AccountProofInputs where
  burn_preimage : Fr
  lower_layer_prefix_len : Nat
  lower_layer_prefix : Bytes
  nonce : Nat
  balance : Nat
  storage_hash : Bytes
  code_hash : Bytes
  salt : Fr
  encrypted : Bool
  account_proof : List Bytes
  state_root : Bytes
deriving DecidableEq, Repr

/-- `AccountProofOutputs` from `account_verification.rs`. -/
structure AccountProofOutputs where
  commit_upper : Fr
  encrypted_balance : Fr
  nullifier : Fr
deriving DecidableEq, Repr

/-- `calculate_upper_layer_commitment` from `account_verification.rs`.
The source slices `lower_layer_prefix[..prefix_len]`, which panics when
`prefix_len` exceeds the prefix length; the panic is modelled as `none`. -/
def calculateUpperLayerCommitment (H : Fr → Fr → Fr) (lowerLayerPrefix : Bytes)
    (prefixLen : Nat) (accountRlp : Bytes) (salt : Fr) : Option Fr :=
  if prefixLen ≤ lowerLayerPrefix.length then
    let upperLayerBytes := lowerLayerPrefix.take prefixLen ++ accountRlp
    let upperLayerHash := H (bytesToFieldElement (upperLayerBytes.take 32))
      (upperLayerBytes.length : Fr)
    some (H upperLayerHash salt)
  else none

/-- The offset loop inside `verify_account_proof_structure`: at the first
offset where the window equals `account_rlp`, return whether
`keccak(prefix ++ account_rlp)` is contained in the previous proof layer;
`false` when no window matches. -/
def structSearch (lastProof prevProof accountRlp : Bytes) : List Nat → Bool
  | [] => false
  | i :: rest =>
    if (lastProof.drop i).take accountRlp.length == accountRlp then
      containsSubstring (keccak256 (lastProof.take i ++ accountRlp)) prevProof
    else structSearch lastProof prevProof accountRlp rest

/-- `verify_account_proof_structure` from `account_verification.rs`: requires
at least two layers, then runs the offset loop over
`0 ..= last.len() - account_rlp.len()` (saturating). -/
def verifyAccountProofStructure (accountProof : List Bytes) (accountRlp : Bytes) : Bool :=
  if accountProof.length < 2 then false
  else
    let lastProof := accountProof.getD (accountProof.length - 1) []
    let prevProof := accountProof.getD (accountProof.length - 2) []
    structSearch lastProof prevProof accountRlp
      (List.range (lastProof.length - accountRlp.length + 1))

/-- `verify_account_proof` from `account_verification.rs` (re-exported by
`lib.rs` as `mpt_last_circuit`): burn-address and nullifier derivation,
balance processing, account RLP encoding, the structure check, the state-root
check, and the upper-layer commitment.  Panics are modelled as `none`. -/
def verifyAccountProof (H : Fr → Fr → Fr) (inputs : AccountProofInputs) :
    Option AccountProofOutputs :=
  let nullifier := generateNullifier H inputs.burn_preimage
  let balanceFr : Fr := (inputs.balance : Fr)
  let encryptedBalance := processBalance H balanceFr inputs.salt inputs.encrypted
  let accountRlp := encodeAccountRlp inputs.nonce inputs.balance
    inputs.storage_hash inputs.code_hash
  if verifyAccountProofStructure inputs.account_proof accountRlp then
    if inputs.account_proof ≠ [] ∧
        keccak256 (inputs.account_proof.getD 0 []) ≠ inputs.state_root then none
    else
      (calculateUpperLayerCommitment H inputs.lower_layer_prefix
        inputs.lower_layer_prefix_len accountRlp inputs.salt).map
        fun commitUpper => ⟨commitUpper, encryptedBalance, nullifier⟩
  else none

/-! ## Orchestrator (`src/program/src/main.rs`)

`main.rs` drives `mpt_path_circuit` (= `verify_merkle_path`) over the
reversed proof chain and encodes the resulting `u32` tags. -/

/-- `verify_state_root` from `program/src/main.rs` as a boolean: `true` when
the keccak image of the top layer equals the supplied state root (the source
panics otherwise). -/
def verifyStateRoot (level : Bytes) (stateRoot : Bytes) : Bool :=
  keccak256 level == stateRoot

/-- `verify_intermediate_layer` from `program/src/main.rs` as a boolean:
`true` when `keccak(level)` is contained in the next level. -/
def verifyIntermediateLayer (level nextLevel : Bytes) : Bool :=
  containsSubstring (keccak256 level) nextLevel

/-- `generate_root_proof` from `program/src/main.rs`: a top PATH invocation
with `num_upper_layer_bytes = 1` and a 136-byte zero buffer as the upper
layer, truncating `commit_upper` to a `u32`. -/
def generateRootProof (H : Fr → Fr → Fr) (level : Bytes) (salt : Fr) : Option Nat :=
  (verifyMerklePath H
    { is_top := true
      num_upper_layer_bytes := 1
      upper_layer_bytes := List.replicate 136 0
      num_lower_layer_bytes := level.length
      lower_layer_bytes := level
      salt := salt }).map fun out => fieldElementToU32 out.commit_upper

/-- `generate_path_proof` from `program/src/main.rs`: a non-top PATH
invocation on a (lower, upper) pair, truncating both commitments to `u32`. -/
def generatePathProof (H : Fr → Fr → Fr) (level nextLevel : Bytes) (salt : Fr) :
    Option (Nat × Nat) :=
  (verifyMerklePath H
    { is_top := false
      num_upper_layer_bytes := nextLevel.length
      upper_layer_bytes := nextLevel
      num_lower_layer_bytes := level.length
      lower_layer_bytes := level
      salt := salt }).map fun out =>
    (fieldElementToU32 out.commit_upper, fieldElementToU32 out.commit_lower)

/-- The enumerated layer loop of `process_mpt_path_proofs`, acting on the
already-reversed chain: every layer but the last is an intermediate hop
(containment check, then a non-top PATH call); the final layer is checked
against the state root and produces the root proof. -/
def processLayers (H : Fr → Fr → Fr) (stateRoot : Bytes) (salt : Fr) :
    List Bytes → Option (List Nat × List Nat × Option Nat)
  | [] => some ([], [], none)
  | [level] =>
    if verifyStateRoot level stateRoot then
      (generateRootProof H level salt).map fun r => ([], [], some r)
    else none
  | level :: nextLevel :: rest =>
    if verifyIntermediateLayer level nextLevel then
      match generatePathProof H level nextLevel salt with
      | none => none
      | some (pathProof, layerCommitment) =>
        match processLayers H stateRoot salt (nextLevel :: rest) with
        | none => none
        | some (pathProofs, layers, rootProof) =>
          some (pathProof :: pathProofs, layerCommitment :: layers, rootProof)
    else none

/-- `process_mpt_path_proofs` from `program/src/main.rs`: reverse the account
proof, then run the layer loop. -/
def processMptPathProofs (H : Fr → Fr → Fr) (accountProof : List Bytes)
    (stateRoot : Bytes) (salt : Fr) : Option (List Nat × List Nat × Option Nat) :=
  processLayers H stateRoot salt accountProof.reverse

/-- `(x as u32).to_be_bytes()`: four big-endian bytes of `x mod 2^32`. -/
def u32be (n : Nat) : Bytes := beBytes 4 n

/-- `encode_proof_data` from `program/src/main.rs`: `be_u32(N)`, the path
proofs, `be_u32(M)`, the layer commitments, then the root proof when
present. -/
def encodeProofData (pathProofs layers : List Nat) (rootProof : Option Nat) : Bytes :=
  u32be pathProofs.length ++ pathProofs.flatMap u32be ++
  u32be layers.length ++ layers.flatMap u32be ++
  (match rootProof with
   | some r => u32be r
   | none => [])

/-- The guest program `main` of `program/src/main.rs`, up to the zkVM I/O
shims: run the LAST circuit, truncate its outputs to `u32`, run the path
loop, and produce the committed data — the public-values tuple
`(burn_preimage, commit_upper, encrypted_balance, nullifier, encrypted)`
together with the encoded path-proof blob. -/
structure ProofInputs where
  burn_preimage : Bytes
  lower_layer_prefix_len : Nat
  lower_layer_prefix : Bytes
  nonce : Nat
  balance : Nat
  storage_hash : Bytes
  code_hash : Bytes
  account_proof : List Bytes
  state_root : Bytes
  salt : Nat
  encrypted : Bool
deriving DecidableEq, Repr

/-- One full pipeline run (the body of `main` in `program/src/main.rs`): the
LAST circuit on the witness, then the path loop, then the committed output
data.  A panic anywhere aborts the run (`none`): no partial outputs. -/
def darkmintPipeline (H : Fr → Fr → Fr) (pi : ProofInputs) :
    Option ((Bytes × Nat × Nat × Nat × Bool) × Bytes) :=
  let burnPreimageFr := frFromBeBytes pi.burn_preimage
  let saltFr : Fr := (pi.salt : Fr)
  match verifyAccountProof H
    { burn_preimage := burnPreimageFr
      lower_layer_prefix_len := pi.lower_layer_prefix_len
      lower_layer_prefix := pi.lower_layer_prefix
      nonce := pi.nonce
      balance := pi.balance
      storage_hash := pi.storage_hash
      code_hash := pi.code_hash
      salt := saltFr
      encrypted := pi.encrypted
      account_proof := pi.account_proof
      state_root := pi.state_root } with
  | none => none
  | some circuitOutputs =>
    match processMptPathProofs H pi.account_proof pi.state_root saltFr with
    | none => none
    | some (pathProofs, layers, rootProof) =>
      some ((pi.burn_preimage,
             fieldElementToU32 circuitOutputs.commit_upper,
             fieldElementToU32 circuitOutputs.encrypted_balance,
             fieldElementToU32 circuitOutputs.nullifier,
             pi.encrypted),
            encodeProofData pathProofs layers rootProof)

/-! ## Concrete test fixtures

Concrete instantiations used by the witness and counterexample theorems.
`Htest` is one admissible instantiation of the algebraic-hash parameter. -/

/-- A concrete instantiation of the algebraic hash parameter. -/
def Htest : Fr → Fr → Fr := fun _ _ => 0

/-- Thirty-two zero bytes. -/
def zero32 : Bytes := List.replicate 32 0

/-- The account RLP of the all-zero account (nonce 0, balance 0, zero
roots), 70 bytes long. -/
def accountRlp0 : Bytes := encodeAccountRlp 0 0 zero32 zero32

/-- A leaf layer that is exactly the account RLP (empty leaf prefix). -/
def leaf0 : Bytes := accountRlp0

/-- A parent layer that is exactly the keccak image of `leaf0`. -/
def prev0 : Bytes := keccak256 leaf0

/-- The keccak image of `prev0`, used as the honest state root. -/
def root0 : Bytes := keccak256 prev0

/-- A two-layer account witness that `verify_account_proof` accepts: the
leaf embeds the account RLP at offset 0 and the parent is its keccak image. -/
def iGood : AccountProofInputs :=
  { burn_preimage := 1
    lower_layer_prefix_len := 0
    lower_layer_prefix := []
    nonce := 0
    balance := 0
    storage_hash := zero32
    code_hash := zero32
    salt := 0
    encrypted := false
    account_proof := [prev0, leaf0]
    state_root := root0 }

/-- `iGood` with a wrong state root. -/
def iBadRoot : AccountProofInputs := { iGood with state_root := zero32 }

/-- `iGood` with a single-layer chain. -/
def iShort : AccountProofInputs := { iGood with account_proof := [leaf0] }

/-- `iGood` with a chain whose leaf does not embed the account RLP. -/
def iNoRlp : AccountProofInputs := { iGood with account_proof := [[0], [0]] }

/-- A top-layer PATH input (the shape of the source's own
`test_verify_merkle_path_top_layer` test). -/
def pathTop : MerklePathInputs :=
  { is_top := true
    num_upper_layer_bytes := 100
    upper_layer_bytes := List.replicate 100 1
    num_lower_layer_bytes := 50
    lower_layer_bytes := List.replicate 50 2
    salt := 0 }

/-- A one-byte bottom layer for the orchestrator fixtures. -/
def low0 : Bytes := [1]

/-- A top layer that is exactly the keccak image of `low0`. -/
def up0 : Bytes := keccak256 low0

/-- The state root matching `up0`. -/
def sroot0 : Bytes := keccak256 up0

/-- A two-layer proof chain (top first, as the account proof is supplied)
whose links are honestly keccak-chained. -/
def apGood : List Bytes := [up0, low0]

/-- A trivial full-pipeline input fixture. -/
def wTriv : ProofInputs :=
  { burn_preimage := []
    lower_layer_prefix_len := 0
    lower_layer_prefix := []
    nonce := 0
    balance := 0
    storage_hash := []
    code_hash := []
    account_proof := []
    state_root := []
    salt := 0
    encrypted := false }

/-! ## Sanity theorems for the Keccak-256 embedding -/

set_option maxRecDepth 10000 in
/-- Known-answer test: Keccak-256 of the empty string. -/
theorem keccak_empty_test :
    keccak256 [] =
      [0xc5, 0xd2, 0x46, 0x01, 0x86, 0xf7, 0x23, 0x3c, 0x92, 0x7e, 0x7d, 0xb2,
       0xdc, 0xc7, 0x03, 0xc0, 0xe5, 0x00, 0xb6, 0x53, 0xca, 0x82, 0x27, 0x3b,
       0x7b, 0xfa, 0xd8, 0x04, 0x5d, 0x85, 0xa4, 0x70] := by decide

set_option maxRecDepth 10000 in
/-- Known-answer test: Keccak-256 of `"abc"`. -/
theorem keccak_abc_test :
    keccak256 [0x61, 0x62, 0x63] =
      [0x4e, 0x03, 0x65, 0x7a, 0xea, 0x45, 0xa9, 0x4f, 0xc7, 0xd4, 0x7b, 0xa8,
       0x26, 0xc8, 0xd6, 0x67, 0xc0, 0xd1, 0xe6, 0xe3, 0x3a, 0x64, 0xa0, 0x36,
       0xec, 0x44, 0xf5, 0x8f, 0xa1, 0x2d, 0x6c, 0x45] := by decide

/-! ## Helper lemmas shared by the claim theorems -/

/-- A successful PATH run returns exactly the two commitments the source
computes before the constraint check. -/
theorem verifyMerklePath_some_shape (H : Fr → Fr → Fr) (i : MerklePathInputs)
    (out : MerklePathOutputs) (h : verifyMerklePath H i = some out) :
    out = ⟨calculateUpperCommitment H i.upper_layer_bytes i.num_upper_layer_bytes
             (keccak256 i.lower_layer_bytes) i.salt i.is_top,
           generateLayerCommitment H i.lower_layer_bytes i.num_lower_layer_bytes i.salt⟩ := by
  simp only [verifyMerklePath] at h
  split at h
  · injection h with h
    exact h.symm
  · cases h

/-- If the offset loop of `verify_account_proof_structure` returns `true`,
some offset embeds the account RLP with its prefix hash contained in the
previous layer. -/
theorem structSearch_some_offset (lastProof prevProof accountRlp : Bytes) :
    ∀ offs, structSearch lastProof prevProof accountRlp offs = true →
      ∃ j, (lastProof.drop j).take accountRlp.length = accountRlp ∧
        containsSubstring (keccak256 (lastProof.take j ++ accountRlp)) prevProof = true := by
  intro offs
  induction offs with
  | nil => intro h; cases h
  | cons i rest ih =>
    intro h
    unfold structSearch at h
    split at h
    · rename_i hw
      exact ⟨i, by simpa using hw, h⟩
    · exact ih h

/-- If no offset embeds the account RLP, the offset loop returns `false`. -/
theorem structSearch_none (lastProof prevProof accountRlp : Bytes) :
    ∀ offs, (∀ j ∈ offs, (lastProof.drop j).take accountRlp.length ≠ accountRlp) →
      structSearch lastProof prevProof accountRlp offs = false := by
  intro offs
  induction offs with
  | nil => intro _; rfl
  | cons i rest ih =>
    intro hno
    unfold structSearch
    split
    · rename_i hw
      exact absurd (by simpa using hw) (hno i (List.mem_cons_self i rest))
    · exact ih fun j hj => hno j (List.mem_cons_of_mem _ hj)

/-- The LAST circuit aborts when the structure check fails. -/
theorem verifyAccountProof_struct_false (H : Fr → Fr → Fr) (i : AccountProofInputs)
    (hs : verifyAccountProofStructure i.account_proof
      (encodeAccountRlp i.nonce i.balance i.storage_hash i.code_hash) = false) :
    verifyAccountProof H i = none := by
  simp [verifyAccountProof, hs]

/-- A passing structure check forces a non-empty chain. -/
theorem struct_true_ne_nil (ap : List Bytes) (rlp : Bytes)
    (hs : verifyAccountProofStructure ap rlp = true) : ap ≠ [] := by
  intro he
  subst he
  simp [verifyAccountProofStructure] at hs

/-- The LAST circuit aborts on a state-root mismatch. -/
theorem verifyAccountProof_root_mismatch (H : Fr → Fr → Fr) (i : AccountProofInputs)
    (hs : verifyAccountProofStructure i.account_proof
      (encodeAccountRlp i.nonce i.balance i.storage_hash i.code_hash) = true)
    (hc : i.account_proof ≠ [] ∧ keccak256 (i.account_proof.getD 0 []) ≠ i.state_root) :
    verifyAccountProof H i = none := by
  simp only [verifyAccountProof]
  rw [hs, if_pos rfl, if_pos hc]

set_option maxRecDepth 10000 in
/-- C3: the PATH circuit succeeds exactly when the keccak image of the lower
layer appears as a substring of the upper layer if and only if `is_top` is
false; in both failure cases no commitments are produced (the result is
`none`). -/
theorem C3_path_containment_iff (H : Fr → Fr → Fr) (i : MerklePathInputs) :
    (verifyMerklePath H i).isSome =
      (containsSubstring (keccak256 i.lower_layer_bytes) i.upper_layer_bytes == !i.is_top) := by
  cases ht : i.is_top <;>
    cases hf : containsSubstring (keccak256 i.lower_layer_bytes) i.upper_layer_bytes <;>
      simp [verifyMerklePath, verifySubstringConstraint, ht, hf]

/-- C5: an account proof with fewer than two layers makes the LAST circuit
fail and produce no outputs. -/
theorem C5_chain_too_short (H : Fr → Fr → Fr) (i : AccountProofInputs)
    (h : i.account_proof.length < 2) : verifyAccountProof H i = none := by
  have hs : verifyAccountProofStructure i.account_proof
      (encodeAccountRlp i.nonce i.balance i.storage_hash i.code_hash) = false := by
    unfold verifyAccountProofStructure
    simp [h]
  simp [verifyAccountProof, hs]

/-- Witness for C5 at a concrete single-layer chain. -/
theorem C5_chain_too_short_witness :
    iShort.account_proof.length < 2 ∧ verifyAccountProof Htest iShort = none :=
  ⟨by decide, C5_chain_too_short Htest iShort (by decide)⟩

/-- C6: every pair of commitments the PATH circuit emits has the claimed
shape — `commit_lower = H(H(bytes_to_field(lower), num_lower), salt)`, and
`commit_upper` is the base upper commitment, mixed with
`bytes_to_field(keccak(lower))` exactly when `is_top` holds. -/
theorem C6_path_commitments (H : Fr → Fr → Fr) (i : MerklePathInputs)
    (out : MerklePathOutputs) (h : verifyMerklePath H i = some out) :
    out.commit_lower =
      H (H (bytesToFieldElement i.lower_layer_bytes) (i.num_lower_layer_bytes : Fr)) i.salt ∧
    out.commit_upper =
      (if i.is_top then
        H (H (H (bytesToFieldElement i.upper_layer_bytes) (i.num_upper_layer_bytes : Fr)) i.salt)
          (bytesToFieldElement (keccak256 i.lower_layer_bytes))
       else
        H (H (bytesToFieldElement i.upper_layer_bytes) (i.num_upper_layer_bytes : Fr)) i.salt) := by
  rw [verifyMerklePath_some_shape H i out h]
  constructor
  · rfl
  · unfold calculateUpperCommitment
    split <;> rfl

set_option maxRecDepth 10000 in
/-- Witness for C6 at a concrete accepted top-layer PATH input. -/
theorem C6_path_commitments_witness :
    (⟨0, 0⟩ : MerklePathOutputs).commit_lower =
      Htest (Htest (bytesToFieldElement pathTop.lower_layer_bytes)
        (pathTop.num_lower_layer_bytes : Fr)) pathTop.salt ∧
    (⟨0, 0⟩ : MerklePathOutputs).commit_upper =
      (if pathTop.is_top then
        Htest (Htest (Htest (bytesToFieldElement pathTop.upper_layer_bytes)
          (pathTop.num_upper_layer_bytes : Fr)) pathTop.salt)
          (bytesToFieldElement (keccak256 pathTop.lower_layer_bytes))
       else
        Htest (Htest (bytesToFieldElement pathTop.upper_layer_bytes)
          (pathTop.num_upper_layer_bytes : Fr)) pathTop.salt) :=
  C6_path_commitments Htest pathTop ⟨0, 0⟩ (by decide)

set_option maxRecDepth 2000 in
/-- C7: the claim fails on `rlp_encode_account` in `mpt_last.rs` — on the
all-zero account it emits the full fixed-width nonce and balance items
(`0x88` followed by eight zero bytes, `0x90` followed by sixteen) instead of
the minimal empty-string encoding `0x80` that `encode_account_rlp` in
`account_verification.rs` produces. -/
theorem C7_rlp_nonminimal_bug :
    rlpEncodeAccount 0 0 zero32 zero32 =
      [0xf8, 0x5c, 0x88] ++ List.replicate 8 0 ++ [0x90] ++ List.replicate 16 0 ++
      [0xa0] ++ zero32 ++ [0xa0] ++ zero32 ∧
    encodeAccountRlp 0 0 zero32 zero32 =
      [0xf8, 0x44, 0x80, 0x80, 0xa0] ++ zero32 ++ [0xa0] ++ zero32 ∧
    rlpEncodeAccount 0 0 zero32 zero32 ≠ encodeAccountRlp 0 0 zero32 zero32 := by
  refine ⟨by decide, by decide, by decide⟩

/-- C9: the embedded pipeline and both circuits are pure functions — equal
inputs give equal outputs, byte for byte.  (The Rust source has no mutable
globals and no nondeterminism in these functions, which the embedding makes
definitional.) -/
theorem C9_determinism (H : Fr → Fr → Fr) (w₁ w₂ : ProofInputs)
    (a₁ a₂ : AccountProofInputs) (m₁ m₂ : MerklePathInputs)
    (hw : w₁ = w₂) (ha : a₁ = a₂) (hm : m₁ = m₂) :
    darkmintPipeline H w₁ = darkmintPipeline H w₂ ∧
    verifyAccountProof H a₁ = verifyAccountProof H a₂ ∧
    verifyMerklePath H m₁ = verifyMerklePath H m₂ := by
  subst hw
  subst ha
  subst hm
  exact ⟨rfl, rfl, rfl⟩

/-- Witness for C9 at concrete inputs. -/
theorem C9_determinism_witness :
    darkmintPipeline Htest wTriv = darkmintPipeline Htest wTriv ∧
    verifyAccountProof Htest iGood = verifyAccountProof Htest iGood ∧
    verifyMerklePath Htest pathTop = verifyMerklePath Htest pathTop :=
  C9_determinism Htest wTriv wTriv iGood iGood pathTop pathTop rfl rfl rfl

/-- C2: the LAST circuit emits outputs only if the account RLP occurs as a
contiguous substring of the last proof layer with the keccak image of
`prefix ++ account_rlp` (prefix = the bytes before the embed offset)
contained in the second-to-last layer; when the account RLP is nowhere
embedded in the leaf, it fails and produces no outputs. -/
theorem C2_leaf_embedding (H : Fr → Fr → Fr) (i : AccountProofInputs) :
    ((verifyAccountProof H i).isSome = true →
      ∃ j, ((i.account_proof.getD (i.account_proof.length - 1) []).drop j).take
          (encodeAccountRlp i.nonce i.balance i.storage_hash i.code_hash).length =
          encodeAccountRlp i.nonce i.balance i.storage_hash i.code_hash ∧
        containsSubstring
          (keccak256 ((i.account_proof.getD (i.account_proof.length - 1) []).take j ++
            encodeAccountRlp i.nonce i.balance i.storage_hash i.code_hash))
          (i.account_proof.getD (i.account_proof.length - 2) []) = true) ∧
    ((∀ j < (i.account_proof.getD (i.account_proof.length - 1) []).length + 1,
        ((i.account_proof.getD (i.account_proof.length - 1) []).drop j).take
          (encodeAccountRlp i.nonce i.balance i.storage_hash i.code_hash).length ≠
          encodeAccountRlp i.nonce i.balance i.storage_hash i.code_hash) →
      verifyAccountProof H i = none) := by
  constructor
  · intro h
    by_cases hs : verifyAccountProofStructure i.account_proof
        (encodeAccountRlp i.nonce i.balance i.storage_hash i.code_hash) = true
    · unfold verifyAccountProofStructure at hs
      split at hs
      · cases hs
      · exact structSearch_some_offset _ _ _ _ hs
    · rw [Bool.not_eq_true] at hs
      rw [verifyAccountProof_struct_false H i hs] at h
      cases h
  · intro hno
    have hs : verifyAccountProofStructure i.account_proof
        (encodeAccountRlp i.nonce i.balance i.storage_hash i.code_hash) = false := by
      unfold verifyAccountProofStructure
      split
      · rfl
      · apply structSearch_none
        intro j hj
        exact hno j (by have := List.mem_range.mp hj; omega)
    simp [verifyAccountProof, hs]

set_option maxRecDepth 10000 in
/-- Witness for C2: the accepted fixture exhibits the embed offset, and the
fixture whose leaf embeds no account RLP is rejected. -/
theorem C2_leaf_embedding_witness :
    (∃ j, ((iGood.account_proof.getD (iGood.account_proof.length - 1) []).drop j).take
        (encodeAccountRlp iGood.nonce iGood.balance iGood.storage_hash iGood.code_hash).length =
        encodeAccountRlp iGood.nonce iGood.balance iGood.storage_hash iGood.code_hash ∧
      containsSubstring
        (keccak256 ((iGood.account_proof.getD (iGood.account_proof.length - 1) []).take j ++
          encodeAccountRlp iGood.nonce iGood.balance iGood.storage_hash iGood.code_hash))
        (iGood.account_proof.getD (iGood.account_proof.length - 2) []) = true) ∧
    verifyAccountProof Htest iNoRlp = none :=
  ⟨(C2_leaf_embedding Htest iGood).1 (by decide),
   (C2_leaf_embedding Htest iNoRlp).2 (by decide)⟩

/-- If the last layer of the (reversed) chain does not hash to the state
root, the orchestrator loop aborts. -/
theorem processLayers_root_mismatch (H : Fr → Fr → Fr) (stateRoot : Bytes) (salt : Fr) :
    ∀ l top, l.getLast? = some top → verifyStateRoot top stateRoot = false →
      processLayers H stateRoot salt l = none := by
  intro l
  induction l with
  | nil => intro top htop _; cases htop
  | cons head tail ih =>
    intro top htop hfalse
    cases tail with
    | nil =>
      have : top = head := by
        simpa using htop.symm
      subst this
      unfold processLayers
      split
      · rename_i hc
        rw [hfalse] at hc
        cases hc
      · rfl
    | cons next rest =>
      rw [List.getLast?_cons_cons] at htop
      unfold processLayers
      split
      · rw [ih top htop hfalse]
        cases generatePathProof H head next salt with
        | none => rfl
        | some p => rfl
      · rfl

/-- C4: an accepted LAST witness has the keccak image of the top layer equal
to the supplied state root; on any mismatch both the LAST circuit and the
orchestrator loop (for a non-empty chain) fail and emit nothing. -/
theorem C4_state_root_closure (H : Fr → Fr → Fr) (i : AccountProofInputs) :
    ((verifyAccountProof H i).isSome = true →
      keccak256 (i.account_proof.getD 0 []) = i.state_root) ∧
    (keccak256 (i.account_proof.getD 0 []) ≠ i.state_root →
      verifyAccountProof H i = none ∧
      (i.account_proof ≠ [] →
        processMptPathProofs H i.account_proof i.state_root i.salt = none)) := by
  constructor
  · intro h
    by_cases hs : verifyAccountProofStructure i.account_proof
        (encodeAccountRlp i.nonce i.balance i.storage_hash i.code_hash) = true
    · by_cases hc : i.account_proof ≠ [] ∧
          keccak256 (i.account_proof.getD 0 []) ≠ i.state_root
      · rw [verifyAccountProof_root_mismatch H i hs hc] at h
        cases h
      · rcases not_and_or.mp hc with hni | hkr
        · exact absurd (struct_true_ne_nil _ _ hs) fun _ =>
            hni (struct_true_ne_nil _ _ hs)
        · exact not_not.mp hkr
    · rw [Bool.not_eq_true] at hs
      rw [verifyAccountProof_struct_false H i hs] at h
      cases h
  · intro hmis
    constructor
    · by_cases hs : verifyAccountProofStructure i.account_proof
          (encodeAccountRlp i.nonce i.balance i.storage_hash i.code_hash) = true
      · exact verifyAccountProof_root_mismatch H i hs ⟨struct_true_ne_nil _ _ hs, hmis⟩
      · rw [Bool.not_eq_true] at hs
        exact verifyAccountProof_struct_false H i hs
    · intro hnonempty
      unfold processMptPathProofs
      have htop : i.account_proof.reverse.getLast? = some (i.account_proof.getD 0 []) := by
        rw [List.getLast?_reverse]
        cases hap : i.account_proof with
        | nil => exact absurd hap hnonempty
        | cons a l => rfl
      apply processLayers_root_mismatch H i.state_root i.salt _ _ htop
      unfold verifyStateRoot
      rw [beq_eq_false_iff_ne]
      exact hmis

set_option maxRecDepth 10000 in
/-- Witness for C4: the accepted fixture satisfies the root equation, and
the fixture with a tampered state root is rejected by the LAST circuit. -/
theorem C4_state_root_closure_witness :
    keccak256 (iGood.account_proof.getD 0 []) = iGood.state_root ∧
    verifyAccountProof Htest iBadRoot = none :=
  ⟨(C4_state_root_closure Htest iGood).1 (by decide),
   ((C4_state_root_closure Htest iBadRoot).2 (by decide)).1⟩

/-- A successful orchestrator loop on a non-empty (reversed) chain of `n`
layers yields `n - 1` path proofs, `n - 1` layer commitments, and a root
proof. -/
theorem processLayers_success_shape (H : Fr → Fr → Fr) (stateRoot : Bytes) (salt : Fr) :
    ∀ l pps lcs rp, processLayers H stateRoot salt l = some (pps, lcs, rp) →
      l ≠ [] → pps.length + 1 = l.length ∧ lcs.length + 1 = l.length ∧ ∃ r, rp = some r := by
  intro l
  induction l with
  | nil => intro pps lcs rp _ hne; exact absurd rfl hne
  | cons head tail ih =>
    intro pps lcs rp h _
    cases tail with
    | nil =>
      simp only [processLayers] at h
      split at h
      · cases hg : generateRootProof H head salt with
        | none => rw [hg] at h; cases h
        | some r =>
          rw [hg, Option.map_some'] at h
          cases h
          exact ⟨rfl, rfl, r, rfl⟩
      · cases h
    | cons next rest =>
      simp only [processLayers] at h
      split at h
      · split at h
        · cases h
        · rename_i pathProof layerCommitment hsome
          split at h
          · cases h
          · rename_i pps' lcs' rp' hrec
            cases h
            obtain ⟨h1, h2, hr⟩ := ih pps' lcs' rp hrec (by simp)
            simp only [List.length_cons] at h1 h2 ⊢
            exact ⟨by omega, by omega, hr⟩
      · cases h

/-- C8: a successful orchestrator run on a proof chain of length `L ≥ 2`
emits exactly `N = M = L - 1` path proofs and layer commitments and one root
proof, and the encoded blob is `be_u32(N)`, the path proofs, `be_u32(M)`,
the layer commitments, then the root proof. -/
theorem C8_blob_layout (H : Fr → Fr → Fr) (accountProof : List Bytes)
    (stateRoot : Bytes) (salt : Fr) (pps lcs : List Nat) (rp : Option Nat)
    (h : processMptPathProofs H accountProof stateRoot salt = some (pps, lcs, rp))
    (hlen : 2 ≤ accountProof.length) :
    pps.length = accountProof.length - 1 ∧
    lcs.length = accountProof.length - 1 ∧
    ∃ r, rp = some r ∧
      encodeProofData pps lcs rp =
        u32be (accountProof.length - 1) ++ pps.flatMap u32be ++
        u32be (accountProof.length - 1) ++ lcs.flatMap u32be ++ u32be r := by
  unfold processMptPathProofs at h
  have hne : accountProof.reverse ≠ [] := by
    intro he
    rw [List.reverse_eq_nil_iff] at he
    rw [he] at hlen
    exact absurd hlen (by decide)
  obtain ⟨h1, h2, r, hr⟩ := processLayers_success_shape H stateRoot salt _ _ _ _ h hne
  rw [List.length_reverse] at h1 h2
  subst hr
  have e1 : pps.length = accountProof.length - 1 := by omega
  have e2 : lcs.length = accountProof.length - 1 := by omega
  refine ⟨e1, e2, r, rfl, ?_⟩
  simp only [encodeProofData, e1, e2]

set_option maxRecDepth 10000 in
/-- Witness for C8: a concrete accepted two-layer chain yields one path
proof, one layer commitment, and a root proof, with the blob laid out as
claimed. -/
theorem C8_blob_layout_witness :
    ([0] : List Nat).length = apGood.length - 1 ∧
    ([0] : List Nat).length = apGood.length - 1 ∧
    ∃ r, (some 0 : Option Nat) = some r ∧
      encodeProofData [0] [0] (some 0) =
        u32be (apGood.length - 1) ++ ([0] : List Nat).flatMap u32be ++
        u32be (apGood.length - 1) ++ ([0] : List Nat).flatMap u32be ++ u32be r :=
  C8_blob_layout Htest apGood sroot0 0 [0] [0] (some 0) (by decide) (by decide)

/-- The little-endian value of a run of zero bytes is zero. -/
theorem leToNat_replicate_zero (n : Nat) : leToNat (List.replicate n 0) = 0 := by
  induction n with
  | zero => rfl
  | succ k ih =>
    rw [List.replicate_succ]
    unfold leToNat at ih ⊢
    rw [List.foldr_cons, ih]

/-- The byte-to-field conversion maps any run of zero bytes to zero. -/
theorem bytesToFieldElement_replicate_zero (n : Nat) :
    bytesToFieldElement (List.replicate n 0) = 0 := by
  unfold bytesToFieldElement frFromLeBytes
  rw [List.take_replicate, leToNat_replicate_zero, Nat.cast_zero]

/-- C10: whatever the root-closure PATH invocation emits equals
`field_to_u32(H(H(H(0, 1), salt), bytes_to_field(keccak(top_layer))))`: the
136-byte zero buffer enters only as `bytes_to_field = 0`, and the declared
upper length is 1, so the root proof depends only on the top layer bytes and
the salt. -/
theorem C10_root_proof_formula (H : Fr → Fr → Fr) (level : Bytes) (salt : Fr)
    (r : Nat) (h : generateRootProof H level salt = some r) :
    r = fieldElementToU32
      (H (H (H 0 1) salt) (bytesToFieldElement (keccak256 level))) := by
  unfold generateRootProof at h
  rw [Option.map_eq_some'] at h
  obtain ⟨out, hout, hr⟩ := h
  rw [verifyMerklePath_some_shape H _ out hout] at hr
  rw [← hr]
  show fieldElementToU32
      (calculateUpperCommitment H (List.replicate 136 0) 1 (keccak256 level) salt true) = _
  unfold calculateUpperCommitment
  rw [if_pos rfl, bytesToFieldElement_replicate_zero, Nat.cast_one]

set_option maxRecDepth 10000 in
/-- Witness for C10 at a concrete top layer and salt. -/
theorem C10_root_proof_formula_witness :
    (0 : Nat) = fieldElementToU32
      (Htest (Htest (Htest 0 1) 0) (bytesToFieldElement (keccak256 low0))) :=
  C10_root_proof_formula Htest low0 0 0 (by decide)

set_option maxRecDepth 10000 in
/-- C1: the claimed prefix check does not happen.  `verify_account_proof`
accepts the fixture `iGood` — whose leaf prefix at the embed offset is the
empty string and so does not end with the 22-byte expected tail
(`keccak(burn_address)[-20..]`, `0xb8`, `len(account_rlp)`) that
`generate_expected_prefix` computes — instead of failing with
`PrefixMismatch`.  In the source `generate_expected_prefix` is never invoked
by `verify_account_proof`, and `mpt_last_circuit` computes the same expected
prefix and then discards it. -/
theorem C1_prefix_never_checked :
    (verifyAccountProof Htest iGood).isSome = true ∧
    (generateExpectedPrefix (deriveBurnAddress Htest iGood.burn_preimage)
        accountRlp0.length).isSuffixOf (leaf0.take 0) = false :=
  ⟨by decide, by decide⟩
